import Mathlib

/-!
Verification development for the chat control loop in `gptme/chat.py`.

The file shallowly embeds the functions of `chat.py` (the turn decision in
`step`, the interrupt handling of the inner loop in `chat`,
`check_for_modifications`, `_find_potential_paths`, `_include_paths`,
`_parse_prompt`, `_parse_prompt_files`) as executable Lean definitions, and
proves the specified properties about them.

Collaborators of `chat.py` that live in other modules (the `Message` value
type, `ToolUse` extraction, the interrupt sentinel constant, the command
table, the filesystem, `urllib.parse`, `pathlib`) are modelled from the
specification; each such definition carries a doc comment saying so.
-/

namespace GptmeChat

/-- Modelled from the spec: message roles are one of `user`, `assistant`,
`system` (gptme.message is not in src). -/
inductive Role where
  | user
  | assistant
  | system
  deriving DecidableEq, Repr

/-- Modelled from the spec: an immutable message value with `role`,
`content`, `files` (ordered attachment paths), `hide`/`quiet` display flags
and a `pinned` flag (gptme.message is not in src). Field replacement
produces a new value. -/
structure Message where
  role : Role
  content : String
  files : List String := []
  pinned : Bool := false
  hide : Bool := false
  quiet : Bool := false
  deriving DecidableEq, Repr

/-- Modelled from the spec: a parsed tool invocation extracted from message
content, with a `tool` identifier and an `is_runnable` capability flag
(gptme.tools is not in src). The extraction function
`ToolUse.iter_from_content` lives outside src, so the embedding passes it
around explicitly as a function `String → List ToolUse`. -/
structure ToolUse where
  tool : String
  is_runnable : Bool
  deriving DecidableEq, Repr

/-- Modelled from the spec: the interrupt sentinel text
(`INTERRUPT_CONTENT` from gptme.constants is not in src; the spec calls it
the sentinel "interrupted" message). Only its identity matters. -/
def INTERRUPT_CONTENT : String := "Interrupted by user"

/-! ### Character-level utilities

`_find_potential_paths` works with Python regexes over the raw content
string; the embedding implements the same scans over `List Char`. -/

/-- The backtick character (written via its code point to keep the source
free of raw backticks). -/
def btc : Char := Char.ofNat 96

/-- Python's `\s` for the ASCII whitespace characters used by
`re.split(r"\s+", ...)` and `str.split()` / `str.strip()`. -/
def isWsC (c : Char) : Bool :=
  c = ' ' || c = '\t' || c = '\n' || c = '\x0d' || c = Char.ofNat 11 || c = Char.ofNat 12

/-- Boolean list prefix test. -/
def listPrefixOf : List Char → List Char → Bool
  | [], _ => true
  | _ :: _, [] => false
  | a :: as, b :: bs => a == b && listPrefixOf as bs

/-- Python `p.startswith(q)` on our string model. -/
def strStartsWith (s pre : String) : Bool := listPrefixOf pre.data s.data

/-- Python `str.strip()`: drop ASCII whitespace from both ends. -/
def stripWsList (l : List Char) : List Char :=
  ((l.dropWhile isWsC).reverse.dropWhile isWsC).reverse

/-- Python `str.rstrip(c)` for a single character `c`: drop all trailing `c`. -/
def rstripChar (c : Char) (l : List Char) : List Char :=
  (l.reverse.dropWhile (fun d => d == c)).reverse

/-- The cleanup applied to every candidate word in `_find_potential_paths`:
`word.strip()` then `.rstrip("?").rstrip(".").rstrip(",").rstrip("!")`. -/
def cleanWord (l : List Char) : List Char :=
  rstripChar '!' (rstripChar ',' (rstripChar '.' (rstripChar '?' (stripWsList l))))

/-- Maximal runs of non-whitespace characters, with an accumulator to stay
structurally recursive. Python's `re.split(r"\s+", s)` plus the loop's
`if not word: continue` (and `str.split()` in `_parse_prompt`) yield exactly
these runs. -/
def wsSplitAux : List Char → List Char → List (List Char)
  | [], acc => if acc.isEmpty then [] else [acc.reverse]
  | c :: cs, acc =>
    if isWsC c then
      if acc.isEmpty then wsSplitAux cs [] else acc.reverse :: wsSplitAux cs []
    else wsSplitAux cs (c :: acc)

/-- Whitespace tokenization of a character list. -/
def wsSplit (l : List Char) : List (List Char) := wsSplitAux l []

/-- Finds the first occurrence of a triple-backtick fence and returns the
text before it and the text after it (`re`'s leftmost match of the literal
fence). -/
def splitAtFence : List Char → Option (List Char × List Char)
  | c1 :: c2 :: c3 :: rest =>
    if c1 == btc && c2 == btc && c3 == btc then some ([], rest)
    else
      match splitAtFence (c2 :: c3 :: rest) with
      | some (b, a) => some (c1 :: b, a)
      | none => none
  | _ => none

/-- One fuel-indexed pass of `re.sub(r"\x60\x60\x60[\s\S]*?\x60\x60\x60", "", content)`:
repeatedly drop the leftmost fenced region (opening fence, shortest middle,
closing fence) and continue scanning after it; if an opening fence has no
closing fence the remainder is left untouched. Fuel only bounds the number
of removed regions. -/
def removeCBGo : Nat → List Char → List Char
  | 0, cs => cs
  | fuel + 1, cs =>
    match splitAtFence cs with
    | none => cs
    | some (b, rest) =>
      match splitAtFence rest with
      | none => cs
      | some (_, rest2) => b ++ removeCBGo fuel rest2

/-- Removal of fenced code regions from content (each removed region
consumes at least six characters, so `cs.length` is always enough fuel). -/
def removeCB (cs : List Char) : List Char := removeCBGo cs.length cs

/-- Finds the first match of the backtick-span regex (a backtick, one or
more non-backtick characters, a backtick) and returns the text before the
match, the span body, and the text after the match. -/
def splitAtBtSpan : List Char → Option (List Char × List Char × List Char)
  | [] => none
  | c :: cs =>
    if c == btc then
      let body := cs.takeWhile (fun d => !(d == btc))
      match cs.drop body.length with
      | _ :: rest =>
        if body.isEmpty then
          match splitAtBtSpan cs with
          | some (b, w, a) => some (c :: b, w, a)
          | none => none
        else some ([], body, rest)
      | [] =>
        match splitAtBtSpan cs with
        | some (b, w, a) => some (c :: b, w, a)
        | none => none
    else
      match splitAtBtSpan cs with
      | some (b, w, a) => some (c :: b, w, a)
      | none => none

/-- Fuel-indexed `re.finditer` over the backtick-span regex, collecting the
span bodies in order. -/
def btSpansGo : Nat → List Char → List (List Char)
  | 0, _ => []
  | fuel + 1, cs =>
    match splitAtBtSpan cs with
    | none => []
    | some (_, body, rest) => body :: btSpansGo fuel rest

/-- Fuel-indexed `re.sub` over the backtick-span regex, dropping every
matched span. -/
def removeBtGo : Nat → List Char → List Char
  | 0, cs => cs
  | fuel + 1, cs =>
    match splitAtBtSpan cs with
    | none => cs
    | some (b, _, rest) => b ++ removeBtGo fuel rest

/-! ### `_find_potential_paths` -/

/-- The helper `is_path_like` from `_find_potential_paths`: a word is
path-like when it starts with "/", "~/" or "./", starts with "http",
contains a slash, or its leading path segment (Python
`word.split("/", 1)[0]`) equals an entry of the current directory listing
(`cwd_files`, passed in explicitly since `Path.cwd().iterdir()` is a
filesystem call). -/
def is_path_like (cwdFiles : List String) (w : List Char) : Bool :=
  listPrefixOf ['/'] w || listPrefixOf ['~', '/'] w || listPrefixOf ['.', '/'] w
    || listPrefixOf ['h', 't', 't', 'p'] w
    || w.contains '/'
    || cwdFiles.any (fun file => w.takeWhile (fun c => !(c == '/')) == file.data)

/-- The scanning pipeline of `_find_potential_paths` applied to the content
with code blocks already removed: collect the cleaned backtick-wrapped
spans that are path-like, then remove backtick spans and collect the
cleaned whitespace-delimited words that are non-empty and path-like. -/
def scanPaths (cwdFiles : List String) (noCb : List Char) : List String :=
  let fromBt :=
    ((btSpansGo noCb.length noCb).map cleanWord).filter (is_path_like cwdFiles)
  let noBt := removeBtGo noCb.length noCb
  let fromWords :=
    ((wsSplit noBt).map cleanWord).filter
      (fun w => !w.isEmpty && is_path_like cwdFiles w)
  (fromBt ++ fromWords).map (fun l => String.mk l)

/-- The function `_find_potential_paths(content)`: remove fenced code regions, then run
the token scan. -/
def find_potential_paths (cwdFiles : List String) (content : String) : List String :=
  scanPaths cwdFiles (removeCB content.data)

/-! ### Filesystem / environment model for the resolver -/

/-- Modelled from the spec: an OS error carrying an errno, as raised by
`pathlib` reads (`errno` and `OSError` are the stdlib, not in src). -/
structure OSErr where
  errno : Nat
  deriving DecidableEq, Repr

/-- The errno `ENAMETOOLONG` (Linux value 36). -/
def ENAMETOOLONG : Nat := 36

/-- The errno `EACCES` (Linux value 13): permission denied. -/
def EACCES : Nat := 13

/-- Modelled from the spec: what reading an existing regular file yields —
its text, a `UnicodeDecodeError` (non-text file), or an `OSError`
(e.g. permission denied). -/
inductive ReadResult where
  | text (s : String)
  | notText
  | osError (e : OSErr)
  deriving DecidableEq, Repr

/-- Modelled from the spec: the filesystem as an oracle for the path
strings the code queries. `entries` maps a path string `p` (as handed to
`Path(p).expanduser()`) to the read outcome for an existing regular file;
absent paths fail `exists() and is_file()`. `Path.exists()` swallows
`OSError`, so mere existence never raises. -/
structure FS where
  entries : List (String × ReadResult)
  deriving Repr

/-- Python `Path(p).expanduser(); p.exists() and p.is_file()` plus `read_text`
as one lookup. -/
def lookupFile (fs : FS) (p : String) : Option ReadResult :=
  fs.entries.lookup p

/-- The environment of collaborators the resolver consults: the command
table `action_descriptions.keys()`, the current directory listing, the
filesystem, the `GPTME_FRESH_CONTEXT` toggle (`use_fresh_context()`),
browser-tool availability (`has_tool("browser")`) and the URL fetcher
(`read_url`, with `none` standing for a raised exception). -/
structure Env where
  cmds : List String
  cwdFiles : List String
  fs : FS
  fresh : Bool
  browserAvailable : Bool
  urlContent : String → Option String

/-- Modelled from the spec: the Python exceptions that can escape the
resolver — an `OSError` or the `assert msg.role == "user"` failure. -/
inductive PyError where
  | osError (e : OSErr)
  | assertionError
  deriving DecidableEq, Repr

/-- The command check shared by `_parse_prompt` and `_parse_prompt_files`:
`any(prompt.startswith(f"/{cmd}") for cmd in action_descriptions.keys())`. -/
def isCommandPrefixed (cmds : List String) (p : String) : Bool :=
  cmds.any (fun cmd => strStartsWith p ("/" ++ cmd))

/-- The fenced block `f"\x60\x60\x60{prompt}\n{text}\n\x60\x60\x60"` built by
`_parse_prompt` (and for URL contents). Built directly over character
lists so that it evaluates by `rfl`. -/
def codeblock (p c : String) : String :=
  String.mk ([btc, btc, btc] ++ p.data ++ ('\n' :: c.data) ++ ('\n' :: [btc, btc, btc]))

/-- Modelled from the spec (resolver step 5: a token that parses as an
absolute URL has scheme and host; `urllib.parse` is the stdlib, not in
src): split at the first "://". -/
def splitSchemeRest : List Char → Option (List Char × List Char)
  | ':' :: '/' :: '/' :: rest => some ([], rest)
  | c :: cs =>
    match splitSchemeRest cs with
    | some (b, a) => some (c :: b, a)
    | none => none
  | [] => none

/-- Modelled from the spec: `urlparse(word)` yields a non-empty scheme and
netloc exactly for words of shape `scheme://host...` with an alphabetic
scheme start and a non-empty host. -/
def isUrl (w : String) : Bool :=
  match splitSchemeRest w.data with
  | some (scheme, rest) =>
    !scheme.isEmpty
      && (scheme.headD 'a').isAlpha
      && scheme.all (fun c => c.isAlphanum || c == '+' || c == '-' || c == '.')
      && !(rest.takeWhile (fun c => !(c == '/') && !(c == '?') && !(c == '#'))).isEmpty
  | none => false

/-! ### `_parse_prompt` -/

/-- Python truthiness of the `str | None` returned by `_parse_prompt`:
`None` and the empty string are falsy. -/
def optTruthy : Option String → Bool
  | none => false
  | some s => !s.data.isEmpty

/-- The early single-path part of `_parse_prompt`, also used for each
existing file found by its word-scan fallback. In the source the fallback
recursively calls `_parse_prompt(path)` on words already checked to
exist as files; that recursive call always returns at this early branch
(command check, then `exists() and is_file()` succeeds), so the recursion
is equivalent to this single-level function. The `except OSError` handler
reads `if oserr.errno != errno.ENAMETOOLONG: pass` followed by an
unconditional `raise`, so every `OSError` from `read_text` propagates. -/
def parse_prompt_single (env : Env) (p : String) : Except OSErr (Option String) :=
  if isCommandPrefixed env.cmds p then .ok none
  else
    match lookupFile env.fs p with
    | some (.text c) => .ok (some (codeblock p c))
    | some .notText => .ok none
    | some (.osError e) => .error e
    | none => .ok none

/-- The word-scan fallback of `_parse_prompt`, reached when the whole
prompt is not an existing file: split the prompt on whitespace, treat
existing words as paths (inlining them via the recursive call) and
non-existing URL-shaped words as URLs (fetched only when the browser tool
is available; a fetch failure is logged and skipped). Always returns a
(possibly empty) string. -/
def parse_prompt_scan (env : Env) (p : String) : Except OSErr (Option String) := do
  let words := (wsSplit p.data).map (fun w => String.mk w)
  let paths := words.filter (fun w => (lookupFile env.fs w).isSome)
  let urls := words.filter (fun w => (lookupFile env.fs w).isNone && isUrl w)
  let header := if paths.isEmpty && urls.isEmpty then "" else "\n\n"
  let fromPaths ← paths.foldlM
    (fun acc q => do
      let r ← parse_prompt_single env q
      pure (acc ++ r.getD ""))
    ""
  let fromUrls :=
    if env.browserAvailable then
      urls.foldl
        (fun acc u =>
          match env.urlContent u with
          | some c => acc ++ codeblock u c
          | none => acc)
        ""
    else ""
  pure (some (header ++ fromPaths ++ fromUrls))

/-- The function `_parse_prompt(prompt)`: commands are never paths; an existing file is
inlined as a fenced block (raising on an `OSError` from the read, returning
`None` on a `UnicodeDecodeError`); otherwise the word-scan fallback runs. -/
def parse_prompt (env : Env) (p : String) : Except OSErr (Option String) :=
  if isCommandPrefixed env.cmds p then .ok none
  else
    match lookupFile env.fs p with
    | some (.text c) => .ok (some (codeblock p c))
    | some .notText => .ok none
    | some (.osError e) => .error e
    | none => parse_prompt_scan env p

/-! ### `_parse_prompt_files` -/

/-- Splitting a character list on a separator character, keeping empty
segments (like Python `str.split(sep)`). -/
def splitOnCharAux (sep : Char) : List Char → List Char → List (List Char)
  | [], acc => [acc.reverse]
  | c :: cs, acc =>
    if c == sep then acc.reverse :: splitOnCharAux sep cs []
    else splitOnCharAux sep cs (c :: acc)

/-- Splitting a character list on a separator character. -/
def splitOnChar (sep : Char) (l : List Char) : List (List Char) :=
  splitOnCharAux sep l []

/-- Modelled from the spec: `pathlib.Path(p).name`, the last non-empty
path segment (`pathlib` is the stdlib, not in src). -/
def pyName (p : List Char) : List Char :=
  ((splitOnChar '/' p).filter (fun s => !s.isEmpty)).getLastD []

/-- Modelled from the spec: `Path(p).suffix[1:]` — the extension after the
last dot of the name, empty when the name has no dot, only a leading dot,
or a trailing dot. -/
def pySuffixNoDot (name : List Char) : List Char :=
  let tl := name.reverse.takeWhile (fun c => !(c == '.'))
  if tl.length = name.length then []
  else if tl.length = 0 then []
  else if name.length = tl.length + 1 then []
  else tl.reverse

/-- The binary-extension check of `_parse_prompt_files`:
`p.suffix[1:].lower() in ["png", "jpg", "jpeg", "gif", "pdf"]`. -/
def supportedBinary (p : String) : Bool :=
  (["png", "jpg", "jpeg", "gif", "pdf"] : List String).contains
    (String.mk ((pySuffixNoDot (pyName p.data)).map Char.toLower))

/-- The function `_parse_prompt_files(prompt)`: commands are never paths; a readable
text file returns its path; a non-text file returns its path only for the
supported binary extensions; its `except OSError` handler returns `None`
unless the errno is `ENAMETOOLONG`, which it re-raises. -/
def parse_prompt_files (env : Env) (p : String) : Except OSErr (Option String) :=
  if isCommandPrefixed env.cmds p then .ok none
  else
    match lookupFile env.fs p with
    | none => .ok none
    | some (.text _) => .ok (some p)
    | some .notText => if supportedBinary p then .ok (some p) else .ok none
    | some (.osError e) => if e.errno ≠ ENAMETOOLONG then .ok none else .error e

/-! ### `_include_paths` -/

/-- The attachment post-processing in `_include_paths`:
`file.expanduser()` (paths are modelled pre-expanded), then
`if workspace and not file.is_absolute(): file = file.absolute().relative_to(workspace)`.
Modelled from the spec ("attachments are stored relative to
`workspaceRoot` when one is supplied and the path is not already
absolute"; `pathlib` is the stdlib, not in src): relativization strips a
matching workspace prefix from the absolutized path. -/
def processFile (cwd : String) (ws : Option String) (f : String) : String :=
  match ws with
  | none => f
  | some w =>
    if strStartsWith f "/" then f
    else
      let abs := cwd ++ "/" ++ f
      if strStartsWith abs (w ++ "/") then String.mk (abs.data.drop (w.data.length + 1))
      else abs

/-- The fallback branch of the `_include_paths` loop body: try
`_parse_prompt_files` and append the processed path to the collected
attachment list. -/
def include_paths_fallback (env : Env) (cwd : String) (ws : Option String)
    (st : String × List String) (word : String) :
    Except PyError (String × List String) :=
  match parse_prompt_files env word with
  | .error e => .error (.osError e)
  | .ok none => .ok st
  | .ok (some f) => .ok (st.1, st.2 ++ [processFile cwd ws f])

/-- One iteration of the `_include_paths` loop over a potential path: in
legacy mode a truthy `_parse_prompt` result is appended to the pending
content appendix, otherwise (and always in fresh-context mode) the word is
offered to `_parse_prompt_files`. -/
def include_paths_step (env : Env) (cwd : String) (ws : Option String)
    (st : String × List String) (word : String) :
    Except PyError (String × List String) :=
  if env.fresh then include_paths_fallback env cwd ws st word
  else
    match parse_prompt env word with
    | .error e => .error (.osError e)
    | .ok contents =>
      if optTruthy contents then .ok (st.1 ++ "\n\n" ++ contents.getD "", st.2)
      else include_paths_fallback env cwd ws st word

/-- The function `_include_paths(msg, workspace)`: asserts the message is a user
message, folds the loop body over the potential paths of its content, and
returns the message with `files` and then `content` extended when the
respective accumulator is non-empty (Python truthiness of `files` and
`append_msg`). -/
def include_paths (env : Env) (cwd : String) (ws : Option String) (msg : Message) :
    Except PyError Message :=
  if msg.role = Role.user then
    match (find_potential_paths env.cwdFiles msg.content).foldlM
        (include_paths_step env cwd ws) ("", []) with
    | .error e => .error e
    | .ok (appendMsg, files) =>
      let msg1 := if files.isEmpty then msg else { msg with files := msg.files ++ files }
      let msg2 :=
        if appendMsg.data.isEmpty then msg1
        else { msg1 with content := msg1.content ++ appendMsg }
      .ok msg2
  else .error .assertionError

/-! ### The turn decision and modification gate of `step` -/

/-- The turn decision of `step` (whether a new user instruction is
solicited): the log is empty, or the last message has role assistant, or
its content is the interrupt sentinel, or it is pinned, or no message in
the log has role user. -/
def stepSolicits (log : List Message) : Bool :=
  match log.getLast? with
  | none => true
  | some last =>
    decide (last.role = Role.assistant)
      || decide (last.content = INTERRUPT_CONTENT)
      || last.pinned
      || !(log.any (fun m => decide (m.role = Role.user)))

/-- Python `next((m.content for m in reversed(log) if m.role == "assistant"), "")`. -/
def lastAssistantContent (log : List Message) : String :=
  ((log.reverse.find? (fun m => decide (m.role = Role.assistant))).map
    Message.content).getD ""

/-- Whether the last assistant message contains a runnable `ToolUse`,
with the extraction function passed explicitly. -/
def hasRunnableInLastAssistant (iter : String → List ToolUse)
    (log : List Message) : Bool :=
  (iter (lastAssistantContent log)).any (fun tu => tu.is_runnable)

/-- For `check_for_modifications`: the messages collected walking the log
backward from the tail until (and excluding) the first user message,
most recent first. -/
def messages_since_user (log : List Message) : List Message :=
  log.reverse.takeWhile (fun m => !decide (m.role = Role.user))

/-- The fixed mutating tool set of `check_for_modifications`. -/
def mutatingTools : List String := ["save", "patch", "append"]

/-- The function `check_for_modifications(log)`: some of the 3 most recent messages
since the last user message contains a `ToolUse` whose tool is in the
mutating set. -/
def check_for_modifications (iter : String → List ToolUse)
    (log : List Message) : Bool :=
  ((messages_since_user log).take 3).any
    (fun m => (iter m.content).any (fun tu => decide (tu.tool ∈ mutatingTools)))

/-- How many times the pre-check of `step` invokes the external validation
hook `check_changes()` (which calls `run_precommit_checks()` once): the
gate is consulted only when the last assistant message has no runnable
`ToolUse`, and the short-circuit
`if check_for_modifications(log) and check_changes()`
calls the hook exactly when the gate reports a modification. -/
def step_precheck_hook_calls (iter : String → List ToolUse)
    (log : List Message) : Nat :=
  if hasRunnableInLastAssistant iter log then 0
  else if check_for_modifications iter log then 1 else 0

/-! ### The interrupt handling of the inner `chat` loop -/

/-- The run of one `step` generator as consumed by
`list(step(...))` in `chat`: the messages it yields, and whether a
`KeyboardInterrupt` was raised while armed before the generator was
exhausted (in which case `list` propagates the exception and the already
yielded prefix is discarded, never reaching `manager.append`). -/
structure StepTrace where
  yields : List Message
  interrupted : Bool

/-- What `response_msgs = list(step(...))` produces for a trace. -/
inductive StepRunResult where
  | completed (msgs : List Message)
  | interrupted

/-- Collection semantics of `list` over the generator: an interrupt
discards every yielded message. -/
def runStepList (t : StepTrace) : StepRunResult :=
  if t.interrupted then .interrupted else .completed t.yields

/-- One iteration of the inner `while True` loop of `chat` around a `step`
call (its `try`/`except KeyboardInterrupt` block): on an interrupt the
handler appends the single sentinel system message and breaks (resuming
the outer loop, returned here as the Bool); otherwise every yielded
message is appended. -/
def chat_step_iteration (log : List Message) (t : StepTrace) :
    List Message × Bool :=
  match runStepList t with
  | .interrupted =>
    (log ++ [{ role := Role.system, content := INTERRUPT_CONTENT }], true)
  | .completed msgs => (log ++ msgs, false)

/-! ### The `_include_paths` call sites (for the assertion claim) -/

/-- The prompt-queue transform in `chat` (lines 129-131): a queued message
passes through `_include_paths` only when its content does not start with
"/" and its role is user. -/
def chat_process_prompt (env : Env) (cwd : String) (ws : Option String)
    (msg : Message) : Except PyError Message :=
  if !strStartsWith msg.content "/" && decide (msg.role = Role.user) then
    include_paths env cwd ws msg
  else .ok msg

/-- The solicitation branch of `step` (lines 242-244): the freshly
solicited inquiry is wrapped as a quiet user message and resolved. -/
def step_solicit_resolve (env : Env) (cwd : String) (ws : Option String)
    (inquiry : String) : Except PyError Message :=
  include_paths env cwd ws { role := Role.user, content := inquiry, quiet := true }

/-! ### Concrete inputs used by the claims -/

/-- A `ToolUse` extraction that parses "run it" as one runnable shell
invocation. -/
def iterC1 : String → List ToolUse := fun s =>
  if s = "run it" then [{ tool := "shell", is_runnable := true }] else []

/-- A log ending in an assistant message whose content holds a runnable
`ToolUse` (under `iterC1`). -/
def logC1A : List Message :=
  [{ role := Role.user, content := "hi" },
   { role := Role.assistant, content := "run it" }]

/-- A log ending in a user message whose content is the interrupt
sentinel. -/
def logC1B : List Message :=
  [{ role := Role.assistant, content := "hello" },
   { role := Role.user, content := INTERRUPT_CONTENT }]

/-- A `ToolUse` extraction that parses every content starting with "save"
as one non-runnable `save` invocation. -/
def iterC3 : String → List ToolUse := fun s =>
  if strStartsWith s "save" then [{ tool := "save", is_runnable := false }] else []

/-- An assistant message for the modification-gate scenario. -/
def mC3 (c : String) : Message := { role := Role.assistant, content := c }

/-- The scenario log of three consecutive non-user messages, each with a
`save` `ToolUse`, after a user message. -/
def logC3 : List Message :=
  [{ role := Role.user, content := "u" }, mC3 "save 1", mC3 "save 2", mC3 "save 3"]

/-- An environment with one command, no files and no browser. -/
def env0 : Env where
  cmds := ["help"]
  cwdFiles := []
  fs := { entries := [] }
  fresh := false
  browserAvailable := false
  urlContent := fun _ => none

/-- An environment where `./notes.txt` is an existing readable text file
containing "hello" and `notes.txt` is listed in the current directory. -/
def envNotes : Env where
  cmds := ["help"]
  cwdFiles := ["notes.txt"]
  fs := { entries := [("./notes.txt", .text "hello")] }
  fresh := false
  browserAvailable := false
  urlContent := fun _ => none

/-- The user message of the notes scenario. -/
def msgNotes : Message := { role := Role.user, content := "summarize ./notes.txt" }

/-- An environment where `secret.txt` exists but reading it raises
`PermissionError` (an `OSError` with errno `EACCES`). -/
def envAcc : Env where
  cmds := []
  cwdFiles := ["secret.txt"]
  fs := { entries := [("secret.txt", .osError { errno := EACCES })] }
  fresh := false
  browserAvailable := false
  urlContent := fun _ => none

/-- A user message referencing the unreadable file. -/
def msgAcc : Message := { role := Role.user, content := "read secret.txt" }

/-- The notes environment with fresh-context mode switched on. -/
def envNotesFresh : Env := { envNotes with fresh := true }

/-- A user message without any path- or URL-like token. -/
def msgPlain : Message := { role := Role.user, content := "hello there, how are you?" }

/-- A user message that is exactly a known command. -/
def msgHelp : Message := { role := Role.user, content := "/help" }

/-- A non-user message, violating the `_include_paths` precondition. -/
def msgSys : Message := { role := Role.system, content := "x" }

/-! ## Helper lemmas -/

/-- The last element of a list is a member. -/
theorem getLast?_mem {α : Type} : ∀ {l : List α} {a : α}, l.getLast? = some a → a ∈ l
  | [], _, h => by simp at h
  | [b], a, h => by
    simp at h
    simp [h]
  | b :: c :: l, a, h => by
    rw [List.getLast?_cons_cons] at h
    exact List.mem_cons_of_mem b (getLast?_mem h)

/-- The turn decision on the empty log. -/
theorem stepSolicits_nil : stepSolicits [] = true := rfl

/-- The turn decision unfolded on a log with a last message. -/
theorem stepSolicits_eq {log : List Message} {last : Message}
    (h : log.getLast? = some last) :
    stepSolicits log =
      (decide (last.role = Role.assistant) || decide (last.content = INTERRUPT_CONTENT)
        || last.pinned || !(log.any (fun m => decide (m.role = Role.user)))) := by
  unfold stepSolicits
  rw [h]

/-! ## C1 -/

/-- C1, counterexample: the claim's corollaries fail on the code. For the
log `logC1A`, the last assistant message contains a runnable `ToolUse`
and yet the turn decision solicits new user input (because the last
message has role assistant); for the log `logC1B`, the last message is a
user message and yet the turn decision solicits (because its content is
the interrupt sentinel). -/
theorem claim_c1_counterexample :
    hasRunnableInLastAssistant iterC1 logC1A = true ∧
      stepSolicits logC1A = true ∧
      logC1B.getLast?.map Message.role = some Role.user ∧
      stepSolicits logC1B = true := by decide

/-- C1, amended: the turn decision solicits a new user instruction exactly
when the log is empty, or the last message is from the assistant, or the
last message's content is the interrupt sentinel, or the last message is
pinned, or no user message exists anywhere in the log; in particular, a
step whose last message is not from the assistant, is not the sentinel
and is not pinned, in a log that contains a user message, never
re-prompts — even when the last assistant message contains a runnable
`ToolUse` — and a step whose last message is from the user, provided that
message is not pinned and its content is not the interrupt sentinel,
proceeds directly to a model call without re-prompting. -/
theorem claim_c1_amended :
    (∀ log : List Message,
      stepSolicits log = true ↔
        (log = [] ∨
          (∃ last, log.getLast? = some last ∧
            (last.role = Role.assistant ∨ last.content = INTERRUPT_CONTENT ∨
              last.pinned = true)) ∨
          (∀ m ∈ log, m.role ≠ Role.user)))
    ∧ (∀ (iter : String → List ToolUse) (log : List Message) (last : Message),
        hasRunnableInLastAssistant iter log = true →
        log.getLast? = some last → last.role ≠ Role.assistant →
        last.content ≠ INTERRUPT_CONTENT → last.pinned = false →
        (∃ m ∈ log, m.role = Role.user) → stepSolicits log = false)
    ∧ (∀ (log : List Message) (last : Message),
        log.getLast? = some last → last.role = Role.user →
        last.content ≠ INTERRUPT_CONTENT → last.pinned = false →
        stepSolicits log = false) := by
  refine ⟨?_, ?_, ?_⟩
  · intro log
    cases hl : log.getLast? with
    | none =>
      have hnil : log = [] := List.getLast?_eq_none_iff.mp hl
      subst hnil
      simp [stepSolicits_nil]
    | some last =>
      have hne : log ≠ [] := by
        rintro rfl
        simp at hl
      rw [stepSolicits_eq hl]
      simp only [Bool.or_eq_true, decide_eq_true_eq, Bool.not_eq_true',
        List.any_eq_false, decide_eq_false_iff_not]
      constructor
      · rintro (((h | h) | h) | h)
        · exact Or.inr (Or.inl ⟨last, rfl, Or.inl h⟩)
        · exact Or.inr (Or.inl ⟨last, rfl, Or.inr (Or.inl h)⟩)
        · exact Or.inr (Or.inl ⟨last, rfl, Or.inr (Or.inr h)⟩)
        · exact Or.inr (Or.inr h)
      · rintro (h | ⟨last', hl', hdis⟩ | h)
        · exact absurd h hne
        · injection hl' with hll
          subst hll
          rcases hdis with h | h | h
          · exact Or.inl (Or.inl (Or.inl h))
          · exact Or.inl (Or.inl (Or.inr h))
          · exact Or.inl (Or.inr h)
        · exact Or.inr h
  · intro iter log last _hrun hl hrole hcontent hpin huser
    obtain ⟨m, hm, hmr⟩ := huser
    have hany : log.any (fun m => decide (m.role = Role.user)) = true :=
      List.any_eq_true.mpr ⟨m, hm, by simp [hmr]⟩
    rw [stepSolicits_eq hl]
    simp [decide_eq_false hrole, decide_eq_false hcontent, hpin, hany]
  · intro log last hl hrole hcontent hpin
    have hmem : last ∈ log := getLast?_mem hl
    have hany : log.any (fun m => decide (m.role = Role.user)) = true :=
      List.any_eq_true.mpr ⟨last, hmem, by simp [hrole]⟩
    have hrole' : last.role ≠ Role.assistant := by
      rw [hrole]
      simp
    rw [stepSolicits_eq hl]
    simp [decide_eq_false hrole', decide_eq_false hcontent, hpin, hany]

/-- C1, witness: the amended corollaries at concrete logs — a log ending
in a plain system tool-output message (with a runnable `ToolUse` in the
last assistant message) does not solicit, and neither does a log ending
in a plain user message. -/
theorem claim_c1_amended_witness :
    stepSolicits
        [{ role := Role.user, content := "hi" },
         { role := Role.assistant, content := "run it" },
         { role := Role.system, content := "done" }] = false ∧
      stepSolicits
        [{ role := Role.assistant, content := "hello" },
         { role := Role.user, content := "go on" }] = false := by
  constructor
  · exact claim_c1_amended.2.1 iterC1
      [{ role := Role.user, content := "hi" },
       { role := Role.assistant, content := "run it" },
       { role := Role.system, content := "done" }]
      { role := Role.system, content := "done" }
      (by decide) (by decide) (by decide) (by decide) (by decide) (by decide)
  · exact claim_c1_amended.2.2
      [{ role := Role.assistant, content := "hello" },
       { role := Role.user, content := "go on" }]
      { role := Role.user, content := "go on" }
      (by decide) (by decide) (by decide) (by decide)

/-! ## C9 -/

/-- C9: the turn decision compares the last message's content to the
interrupt sentinel and honours the pinned flag regardless of role; in
particular a log whose last message is a user message carrying the
sentinel content, or a pinned user message, solicits a new instruction
instead of proceeding to a model call. -/
theorem claim_c9 :
    (∀ (log : List Message) (last : Message), log.getLast? = some last →
       last.content = INTERRUPT_CONTENT → stepSolicits log = true)
    ∧ (∀ (log : List Message) (last : Message), log.getLast? = some last →
       last.pinned = true → stepSolicits log = true)
    ∧ stepSolicits [{ role := Role.user, content := INTERRUPT_CONTENT }] = true
    ∧ stepSolicits [{ role := Role.user, content := "hi", pinned := true }] = true := by
  refine ⟨?_, ?_, by decide, by decide⟩
  · intro log last hl hc
    rw [stepSolicits_eq hl]
    simp [hc]
  · intro log last hl hp
    rw [stepSolicits_eq hl]
    simp [hp]

/-- C9, witness: the role-independent sentinel and pinned checks applied
at concrete two-message logs ending in a user message. -/
theorem claim_c9_witness :
    stepSolicits
        [{ role := Role.assistant, content := "a" },
         { role := Role.user, content := INTERRUPT_CONTENT }] = true ∧
      stepSolicits
        [{ role := Role.assistant, content := "a" },
         { role := Role.user, content := "q", pinned := true }] = true := by
  constructor
  · exact claim_c9.1
      [{ role := Role.assistant, content := "a" },
       { role := Role.user, content := INTERRUPT_CONTENT }]
      { role := Role.user, content := INTERRUPT_CONTENT } (by decide) rfl
  · exact claim_c9.2.1
      [{ role := Role.assistant, content := "a" },
       { role := Role.user, content := "q", pinned := true }]
      { role := Role.user, content := "q", pinned := true } (by decide) rfl

/-! ## C2 -/

/-- C2: when an interrupt is raised while armed during a `step` run in the
prompt-queue loop of `chat`, the iteration appends exactly one sentinel
"interrupted" system message (regardless of any messages the interrupted
generator had yielded — `list` discards them), appends no partial
assistant message, resumes the outer loop (break), and the log grows by
exactly one. -/
theorem claim_c2 (log : List Message) (t : StepTrace)
    (hint : t.interrupted = true) :
    chat_step_iteration log t =
      (log ++ [{ role := Role.system, content := INTERRUPT_CONTENT }], true) ∧
      (chat_step_iteration log t).1.length = log.length + 1 ∧
      (chat_step_iteration log t).1.drop log.length =
        [{ role := Role.system, content := INTERRUPT_CONTENT }] := by
  have h1 : chat_step_iteration log t =
      (log ++ [{ role := Role.system, content := INTERRUPT_CONTENT }], true) := by
    unfold chat_step_iteration runStepList
    rw [hint]
    rfl
  refine ⟨h1, ?_, ?_⟩
  · rw [h1]
    simp
  · rw [h1]
    exact List.drop_left log _

/-- C2, witness: a concrete interrupted step whose generator had already
yielded a partial assistant message; the appended tail is exactly the
sentinel. -/
theorem claim_c2_witness :
    chat_step_iteration [{ role := Role.user, content := "hi" }]
        { yields := [{ role := Role.assistant, content := "partial" }],
          interrupted := true } =
      ([{ role := Role.user, content := "hi" },
        { role := Role.system, content := INTERRUPT_CONTENT }], true) :=
  (claim_c2 _ _ rfl).1

/-! ## C3 -/

/-- The function `takeWhile` passes over a prefix on which the predicate holds. -/
theorem takeWhile_append_all {α : Type} {p : α → Bool} :
    ∀ (l1 l2 : List α), (∀ x ∈ l1, p x = true) →
      (l1 ++ l2).takeWhile p = l1 ++ l2.takeWhile p
  | [], _, _ => rfl
  | a :: l1, l2, h => by
    have ha : p a = true := h a (List.mem_cons_self a l1)
    have ih := takeWhile_append_all l1 l2
      (fun x hx => h x (List.mem_cons_of_mem a hx))
    simp [List.takeWhile_cons, ha, ih]

/-- C3: `check_for_modifications` collects the messages after the most
recent user message (most recent first), considers at most the three most
recent of them, and reports a modification exactly when one of those
contains a `ToolUse` whose tool is `save`, `patch` or `append`; in the
scenario of three consecutive non-user messages each carrying a `save`
`ToolUse`, exactly those three are scanned and the validation hook is
invoked once. -/
theorem claim_c3 :
    (∀ (pre post : List Message) (u : Message),
        u.role = Role.user → (∀ m ∈ post, m.role ≠ Role.user) →
        messages_since_user (pre ++ u :: post) = post.reverse)
    ∧ (∀ (iter : String → List ToolUse) (log : List Message),
        check_for_modifications iter log = true ↔
          ∃ m ∈ (messages_since_user log).take 3, ∃ tu ∈ iter m.content,
            tu.tool ∈ mutatingTools)
    ∧ messages_since_user logC3 = [mC3 "save 3", mC3 "save 2", mC3 "save 1"]
    ∧ step_precheck_hook_calls iterC3 logC3 = 1 := by
  refine ⟨?_, ?_, by decide, by decide⟩
  · intro pre post u hu hpost
    unfold messages_since_user
    rw [List.reverse_append, List.reverse_cons, List.append_assoc]
    have hrev : ∀ x ∈ post.reverse, (!decide (x.role = Role.user)) = true := by
      intro x hx
      simp [hpost x (List.mem_reverse.mp hx)]
    rw [takeWhile_append_all _ _ hrev]
    simp [List.takeWhile_cons, hu]
  · intro iter log
    unfold check_for_modifications
    simp [List.any_eq_true]

/-- C3, witness: the collection characterization at a concrete log with a
user message in the middle. -/
theorem claim_c3_witness :
    messages_since_user
        ([{ role := Role.user, content := "a" }] ++
          { role := Role.user, content := "b" } ::
            [{ role := Role.assistant, content := "x" },
             { role := Role.system, content := "y" }]) =
      [{ role := Role.system, content := "y" },
       { role := Role.assistant, content := "x" }] :=
  claim_c3.1 [{ role := Role.user, content := "a" }]
    [{ role := Role.assistant, content := "x" },
     { role := Role.system, content := "y" }]
    { role := Role.user, content := "b" } rfl (by decide)

/-! ## C6 -/

/-- C6: on a user message whose content yields no potential path or URL
token, `_include_paths` is the identity — the returned message equals the
input (content and files unchanged; mutation is impossible since messages
are values). -/
theorem claim_c6 (env : Env) (cwd : String) (ws : Option String) (msg : Message)
    (hrole : msg.role = Role.user)
    (hnone : find_potential_paths env.cwdFiles msg.content = []) :
    include_paths env cwd ws msg = .ok msg := by
  unfold include_paths
  rw [if_pos hrole, hnone]
  rfl

/-- C6, witness: a concrete token-free message passes through unchanged. -/
theorem claim_c6_witness :
    find_potential_paths env0.cwdFiles msgPlain.content = [] ∧
      include_paths env0 "/cwd" none msgPlain = .ok msgPlain :=
  ⟨by decide, claim_c6 env0 "/cwd" none msgPlain rfl (by decide)⟩

/-! ## C8 -/

/-- C8: a token starting with "/" followed by a known command name is
never treated as a path: `_parse_prompt` and `_parse_prompt_files` both
return `None` for it, and a message whose only potential path is such a
token is returned unchanged (nothing inlined, nothing attached). -/
theorem claim_c8 (env : Env) (cwd : String) (ws : Option String) (p cmd : String)
    (hmem : cmd ∈ env.cmds) (hpre : strStartsWith p ("/" ++ cmd) = true) :
    parse_prompt env p = .ok none ∧
      parse_prompt_files env p = .ok none ∧
      ∀ msg : Message, msg.role = Role.user →
        find_potential_paths env.cwdFiles msg.content = [p] →
        include_paths env cwd ws msg = .ok msg := by
  have hcmd : isCommandPrefixed env.cmds p = true :=
    List.any_eq_true.mpr ⟨cmd, hmem, hpre⟩
  refine ⟨?_, ?_, ?_⟩
  · unfold parse_prompt
    rw [hcmd]
    rfl
  · unfold parse_prompt_files
    rw [hcmd]
    rfl
  · intro msg hrole hfind
    unfold include_paths
    rw [if_pos hrole, hfind]
    have hstep : include_paths_step env cwd ws ("", []) p = .ok ("", []) := by
      unfold include_paths_step include_paths_fallback
      unfold parse_prompt parse_prompt_files
      rw [hcmd]
      cases env.fresh <;> rfl
    simp only [List.foldlM_cons, List.foldlM_nil, hstep]
    rfl

/-- C8, witness: the literal token "/help" under an environment whose
command table contains `help`. -/
theorem claim_c8_witness :
    "help" ∈ env0.cmds ∧
      parse_prompt env0 "/help" = .ok none ∧
      parse_prompt_files env0 "/help" = .ok none ∧
      include_paths env0 "/cwd" none msgHelp = .ok msgHelp := by
  refine ⟨by decide, ?_, ?_, ?_⟩
  · exact (claim_c8 env0 "/cwd" none "/help" "help" (by decide) (by decide)).1
  · exact (claim_c8 env0 "/cwd" none "/help" "help" (by decide) (by decide)).2.1
  · exact (claim_c8 env0 "/cwd" none "/help" "help" (by decide) (by decide)).2.2
      msgHelp rfl (by decide)

/-! ## C10 -/

/-- The fallback branch never raises the assertion error. -/
theorem include_paths_fallback_no_assert (env : Env) (cwd : String)
    (ws : Option String) (st : String × List String) (w : String) :
    include_paths_fallback env cwd ws st w ≠ .error .assertionError := by
  unfold include_paths_fallback
  cases h : parse_prompt_files env w with
  | error e => simp
  | ok o => cases o <;> simp

/-- The loop body never raises the assertion error. -/
theorem include_paths_step_no_assert (env : Env) (cwd : String)
    (ws : Option String) (st : String × List String) (w : String) :
    include_paths_step env cwd ws st w ≠ .error .assertionError := by
  unfold include_paths_step
  cases hf : env.fresh with
  | true => simpa using include_paths_fallback_no_assert env cwd ws st w
  | false =>
    cases h : parse_prompt env w with
    | error e => simp
    | ok o =>
      cases ht : optTruthy o with
      | true => simp [ht]
      | false => simpa [ht] using include_paths_fallback_no_assert env cwd ws st w

/-- The whole resolver fold never raises the assertion error. -/
theorem foldlM_steps_no_assert (env : Env) (cwd : String) (ws : Option String) :
    ∀ (l : List String) (st : String × List String),
      List.foldlM (include_paths_step env cwd ws) st l ≠
        Except.error PyError.assertionError
  | [], st => fun hc => Except.noConfusion hc
  | w :: l, st => by
    rw [List.foldlM_cons]
    cases h : include_paths_step env cwd ws st w with
    | error e =>
      have hstep := include_paths_step_no_assert env cwd ws st w
      rw [h] at hstep
      exact fun hc => hstep hc
    | ok st' => exact fun hc => foldlM_steps_no_assert env cwd ws l st' hc

/-- C10: `_include_paths` fails its role assertion exactly on non-user
messages, and every call site satisfies the precondition — the queued
prompt transform in `chat` only resolves user messages, and the
solicitation branch of `step` resolves a freshly built user message — so
the assertion is unreachable in normal operation. -/
theorem claim_c10 :
    (∀ (env : Env) (cwd : String) (ws : Option String) (msg : Message),
        msg.role ≠ Role.user →
        include_paths env cwd ws msg = .error .assertionError)
    ∧ (∀ (env : Env) (cwd : String) (ws : Option String) (msg : Message),
        msg.role = Role.user →
        include_paths env cwd ws msg ≠ .error .assertionError)
    ∧ (∀ (env : Env) (cwd : String) (ws : Option String) (msg : Message),
        chat_process_prompt env cwd ws msg ≠ .error .assertionError)
    ∧ (∀ (env : Env) (cwd : String) (ws : Option String) (inq : String),
        step_solicit_resolve env cwd ws inq ≠ .error .assertionError) := by
  have hok : ∀ (env : Env) (cwd : String) (ws : Option String) (msg : Message),
      msg.role = Role.user →
      include_paths env cwd ws msg ≠ .error .assertionError := by
    intro env cwd ws msg hrole
    unfold include_paths
    rw [if_pos hrole]
    intro hc
    split at hc
    · rename_i e heq
      injection hc with hce
      subst hce
      exact foldlM_steps_no_assert env cwd ws _ _ heq
    · rename_i st heq
      exact Except.noConfusion hc
  refine ⟨?_, hok, ?_, ?_⟩
  · intro env cwd ws msg hrole
    unfold include_paths
    rw [if_neg hrole]
  · intro env cwd ws msg
    unfold chat_process_prompt
    cases hcond : (!strStartsWith msg.content "/" && decide (msg.role = Role.user)) with
    | false => simp
    | true =>
      have hrole : msg.role = Role.user := by
        have hc2 := (Bool.and_eq_true _ _).mp hcond
        simpa using hc2.2
      exact fun hc => hok env cwd ws msg hrole hc
  · intro env cwd ws inq
    exact hok env cwd ws { role := Role.user, content := inq, quiet := true } rfl

/-- C10, witness: the assertion fires on a concrete system message, and
the `chat` call-site guard routes that same message around the resolver. -/
theorem claim_c10_witness :
    include_paths env0 "/cwd" none msgSys = .error .assertionError ∧
      chat_process_prompt env0 "/cwd" none msgSys ≠ .error .assertionError :=
  ⟨claim_c10.1 env0 "/cwd" none msgSys (by decide),
   claim_c10.2.2.1 env0 "/cwd" none msgSys⟩

/-! ## C7 -/

/-- C7: evaluation of the code at the failing input — `secret.txt` exists
but reading it raises `PermissionError` (errno `EACCES`); `_parse_prompt`
re-raises the `OSError` (its handler reads
`if oserr.errno != errno.ENAMETOOLONG: pass` followed by an unconditional
`raise`), so `_include_paths` propagates the error instead of treating the
token as "not a path" and completing normally. -/
theorem claim_c7_bug_eval :
    find_potential_paths envAcc.cwdFiles msgAcc.content = ["secret.txt"] ∧
      parse_prompt envAcc "secret.txt" = .error { errno := EACCES } ∧
      include_paths envAcc "/cwd" none msgAcc =
        .error (.osError { errno := EACCES }) :=
  ⟨by decide, rfl, rfl⟩

/-! ## C4 -/

/-- C4: for a user message whose only potential path is an existing
readable text file `F` with text `t`, legacy mode returns the message with
a fenced block `codeblock F t` (whose body is exactly `t`) appended to the
content and the files untouched, while fresh-context mode instead appends
`F` to the files and leaves the content unchanged. -/
theorem claim_c4 (env : Env) (cwd : String) (msg : Message) (F t : String)
    (hrole : msg.role = Role.user)
    (hfind : find_potential_paths env.cwdFiles msg.content = [F])
    (hcmd : isCommandPrefixed env.cmds F = false)
    (hfile : lookupFile env.fs F = some (.text t)) :
    (env.fresh = false →
      include_paths env cwd none msg =
        .ok { msg with content := msg.content ++ "\n\n" ++ codeblock F t }) ∧
    (env.fresh = true →
      include_paths env cwd none msg =
        .ok { msg with files := msg.files ++ [F] }) := by
  constructor
  · intro hfresh
    have hstep : include_paths_step env cwd none ("", []) F =
        .ok ("" ++ "\n\n" ++ codeblock F t, []) := by
      unfold include_paths_step parse_prompt
      rw [hfresh, hcmd, hfile]
      simp [optTruthy, codeblock]
    unfold include_paths
    rw [if_pos hrole, hfind]
    rw [List.foldlM_cons, hstep]
    simp only [String.append_assoc]
    rfl
  · intro hfresh
    have hstep : include_paths_step env cwd none ("", []) F =
        .ok ("", [F]) := by
      unfold include_paths_step include_paths_fallback parse_prompt_files
      rw [hfresh, hcmd, hfile]
      rfl
    unfold include_paths
    rw [if_pos hrole, hfind]
    rw [List.foldlM_cons, hstep]
    rfl

/-- C4, witness: the notes scenario — the file `./notes.txt` contains
"hello"; legacy mode appends the fenced block with body "hello",
fresh-context mode attaches the path and keeps the content. -/
theorem claim_c4_witness :
    find_potential_paths envNotes.cwdFiles msgNotes.content = ["./notes.txt"] ∧
      include_paths envNotes "/cwd" none msgNotes =
        .ok { msgNotes with
          content := msgNotes.content ++ "\n\n" ++ codeblock "./notes.txt" "hello" } ∧
      include_paths envNotesFresh "/cwd" none msgNotes =
        .ok { msgNotes with files := ["./notes.txt"] } :=
  ⟨by decide,
   (claim_c4 envNotes "/cwd" msgNotes "./notes.txt" "hello" rfl (by decide)
     (by decide) rfl).1 rfl,
   (claim_c4 envNotesFresh "/cwd" msgNotes "./notes.txt" "hello" rfl (by decide)
     (by decide) rfl).2 rfl⟩

/-! ## C5 -/

/-- Definitional unfolding of `splitAtFence` on a three-or-more element
list. -/
theorem splitAtFence_cons3 (c1 c2 c3 : Char) (rest : List Char) :
    splitAtFence (c1 :: c2 :: c3 :: rest) =
      (if c1 == btc && c2 == btc && c3 == btc then some ([], rest)
       else
         match splitAtFence (c2 :: c3 :: rest) with
         | some (b, a) => some (c1 :: b, a)
         | none => none) := rfl

/-- A non-backtick head commutes with the fence search. -/
theorem splitAtFence_cons_not_bt {c : Char} (hc : (c == btc) = false) :
    ∀ l : List Char,
      splitAtFence (c :: l) = (splitAtFence l).map (fun p => (c :: p.1, p.2))
  | [] => rfl
  | [_] => rfl
  | x :: y :: rest => by
    rw [splitAtFence_cons3, hc]
    simp only [Bool.false_and, Bool.false_eq_true, if_false]
    cases splitAtFence (x :: y :: rest) with
    | none => rfl
    | some p => rfl

/-- A backtick-free prefix commutes with the fence search. -/
theorem splitAtFence_append_no_bt :
    ∀ (pre : List Char), (∀ c ∈ pre, (c == btc) = false) → ∀ post : List Char,
      splitAtFence (pre ++ post) =
        (splitAtFence post).map (fun p => (pre ++ p.1, p.2))
  | [], _, post => by
    rw [List.nil_append]
    cases hp : splitAtFence post with
    | none => rfl
    | some p => rfl
  | c :: pre, h, post => by
    have hc : (c == btc) = false := h c (List.mem_cons_self c pre)
    have ih := splitAtFence_append_no_bt pre
      (fun x hx => h x (List.mem_cons_of_mem c hx)) post
    rw [List.cons_append, splitAtFence_cons_not_bt hc, ih]
    cases hp : splitAtFence post with
    | none => rfl
    | some p => rfl

/-- The fence search finds a leading fence at once. -/
theorem splitAtFence_fence (rest : List Char) :
    splitAtFence (btc :: btc :: btc :: rest) = some ([], rest) := by
  rw [splitAtFence_cons3]
  simp

/-- A successful fence search decomposes the length. -/
theorem splitAtFence_length :
    ∀ {cs b a : List Char}, splitAtFence cs = some (b, a) →
      cs.length = b.length + 3 + a.length
  | [], _, _, h => Option.noConfusion h
  | [_], _, _, h => Option.noConfusion h
  | [_, _], _, _, h => Option.noConfusion h
  | c1 :: c2 :: c3 :: rest, b, a, h => by
    rw [splitAtFence_cons3] at h
    by_cases hc : (c1 == btc && c2 == btc && c3 == btc) = true
    · rw [if_pos hc] at h
      injection h with h2
      cases h2
      simp only [List.length_cons, List.length_nil]
      omega
    · rw [if_neg hc] at h
      cases hsp : splitAtFence (c2 :: c3 :: rest) with
      | none =>
        rw [hsp] at h
        exact Option.noConfusion h
      | some p =>
        obtain ⟨b', a'⟩ := p
        rw [hsp] at h
        have h' : some (c1 :: b', a') = some (b, a) := h
        injection h' with h2
        cases h2
        have ih := splitAtFence_length hsp
        simp only [List.length_cons] at ih ⊢
        omega

/-- Definitional unfolding of one removal pass. -/
theorem removeCBGo_succ (fuel : Nat) (cs : List Char) :
    removeCBGo (fuel + 1) cs =
      (match splitAtFence cs with
       | none => cs
       | some (b, rest) =>
         match splitAtFence rest with
         | none => cs
         | some (_, rest2) => b ++ removeCBGo fuel rest2) := rfl

/-- Without any fence the removal is the identity (any fuel). -/
theorem removeCBGo_no_fence {cs : List Char} (h : splitAtFence cs = none) :
    ∀ fuel, removeCBGo fuel cs = cs
  | 0 => rfl
  | fuel + 1 => by
    rw [removeCBGo_succ, h]

/-- With an unclosed fence the removal is the identity (any fuel). -/
theorem removeCBGo_unclosed {cs b rest : List Char}
    (h1 : splitAtFence cs = some (b, rest)) (h2 : splitAtFence rest = none) :
    ∀ fuel, removeCBGo fuel cs = cs
  | 0 => rfl
  | fuel + 1 => by
    rw [removeCBGo_succ, h1]
    simp [h2]

/-- A backtick-free prefix passes through code-block removal unchanged,
at every fuel. -/
theorem removeCBGo_append (fuel : Nat) {pre : List Char}
    (h : ∀ c ∈ pre, (c == btc) = false) (post : List Char) :
    removeCBGo fuel (pre ++ post) = pre ++ removeCBGo fuel post := by
  cases fuel with
  | zero => rfl
  | succ n =>
    rw [removeCBGo_succ, removeCBGo_succ, splitAtFence_append_no_bt _ h post]
    cases h1 : splitAtFence post with
    | none => rfl
    | some p =>
      obtain ⟨b, rest⟩ := p
      cases h2 : splitAtFence rest with
      | none => simp [h2]
      | some q =>
        obtain ⟨m, rest2⟩ := q
        simp [h2, List.append_assoc]

/-- Removing the leading fenced region: a backtick-free prefix, an
explicit fenced block with backtick-free body, then the remainder. -/
theorem removeCBGo_block (fuel : Nat) {pre mid : List Char}
    (hpre : ∀ c ∈ pre, (c == btc) = false)
    (hmid : ∀ c ∈ mid, (c == btc) = false) (post : List Char) :
    removeCBGo (fuel + 1)
        (pre ++ btc :: btc :: btc :: (mid ++ btc :: btc :: btc :: post)) =
      pre ++ removeCBGo fuel post := by
  have h1 : splitAtFence (btc :: btc :: btc :: (mid ++ btc :: btc :: btc :: post)) =
      some ([], mid ++ btc :: btc :: btc :: post) := splitAtFence_fence _
  have h2 : splitAtFence (mid ++ btc :: btc :: btc :: post) = some (mid, post) := by
    rw [splitAtFence_append_no_bt _ hmid, splitAtFence_fence]
    simp
  rw [removeCBGo_succ, splitAtFence_append_no_bt _ hpre, h1]
  simp [h2]

/-- Fuel irrelevance: any fuel at least the list length computes the same
removal. -/
theorem removeCBGo_fuel :
    ∀ (f f' : Nat) (cs : List Char), cs.length ≤ f → cs.length ≤ f' →
      removeCBGo f cs = removeCBGo f' cs
  | 0, f', cs, h, _ => by
    have hnil : cs = [] := List.eq_nil_of_length_eq_zero (Nat.le_zero.mp h)
    subst hnil
    exact (removeCBGo_no_fence (show splitAtFence [] = none from rfl) f').symm
  | f + 1, f', cs, h, h' => by
    cases h1 : splitAtFence cs with
    | none => rw [removeCBGo_no_fence h1, removeCBGo_no_fence h1]
    | some p =>
      obtain ⟨b, rest⟩ := p
      cases h2 : splitAtFence rest with
      | none => rw [removeCBGo_unclosed h1 h2, removeCBGo_unclosed h1 h2]
      | some q =>
        obtain ⟨m, rest2⟩ := q
        have hlen1 := splitAtFence_length h1
        have hlen2 := splitAtFence_length h2
        cases f' with
        | zero => exact absurd h' (by omega)
        | succ g =>
          simp only [removeCBGo_succ, h1, h2]
          have ih := removeCBGo_fuel f g rest2 (by omega) (by omega)
          rw [ih]

/-- C5: reference scanning never sees the inside of a fenced code region —
for any content of the shape `pre + fence + mid + fence + post` with no
backtick in `pre` or `mid`, the potential paths are exactly those of
`pre + post`, so a path-shaped string occurring in the fenced region is
never treated as a reference. -/
theorem claim_c5 (cwdFiles : List String) (pre mid post : String)
    (hpre : ∀ c ∈ pre.data, (c == btc) = false)
    (hmid : ∀ c ∈ mid.data, (c == btc) = false) :
    find_potential_paths cwdFiles (pre ++ "```" ++ mid ++ "```" ++ post) =
      find_potential_paths cwdFiles (pre ++ post) := by
  have hfd : ("```" : String).data = [btc, btc, btc] := rfl
  have hdata1 : (pre ++ "```" ++ mid ++ "```" ++ post).data =
      pre.data ++ btc :: btc :: btc :: (mid.data ++ btc :: btc :: btc :: post.data) := by
    rw [String.data_append, String.data_append, String.data_append,
      String.data_append, hfd]
    simp [List.append_assoc]
  have hdata2 : (pre ++ post).data = pre.data ++ post.data :=
    String.data_append pre post
  unfold find_potential_paths removeCB
  rw [hdata1, hdata2]
  congr 1
  have hL1 : (pre.data ++ btc :: btc :: btc :: (mid.data ++ btc :: btc :: btc :: post.data)).length
      = (pre.data.length + mid.data.length + post.data.length + 5) + 1 := by
    simp [List.length_append, List.length_cons]
    omega
  rw [hL1, removeCBGo_block _ hpre hmid, removeCBGo_append _ hpre]
  congr 1
  exact removeCBGo_fuel _ _ post.data (by omega)
    (by simp [List.length_append])

/-- C5, witness: a concrete message whose fenced block contains the
path-shaped string "/etc/passwd"; scanning ignores it and finds only the
token outside the block. -/
theorem claim_c5_witness :
    (∀ c ∈ ("see " : String).data, (c == btc) = false) ∧
      find_potential_paths [] ("see " ++ "```" ++ "/etc/passwd" ++ "```" ++ " ok /tmp/x") =
        find_potential_paths [] ("see " ++ " ok /tmp/x") :=
  ⟨by decide, claim_c5 [] "see " "/etc/passwd" " ok /tmp/x" (by decide) (by decide)⟩

end GptmeChat
